import Mathlib

/-!
Verification of the request-dispatch and payload-negotiation layer of the
repository: route table construction (`defineGroup`, `flattenRoutes`,
`compileRoutes`), method dispatch (`buildMethodsHandler`), the bounded body
stream (`ReadNBytesSource.pull` / `readAtMostNBytes`), body ingestion
(`streamOfRequestBody`, `receive`), content negotiation
(`assertAcceptsSupported`, `send`) and the router.

Byte streams are modelled as finite lists of chunks, each chunk a list of
byte values.  Stateful stream code becomes explicit state passing.  External
platform pieces (URL pattern matching, the `accepts` negotiation helper, the
media-type parser, the individual codecs) are either parameters of the
definitions or small concrete models taken from the specification, marked as
such in their doc comments.
-/

namespace Foolert

/-- Total number of bytes in a list of chunks. -/
def totalLen (chunks : List (List Nat)) : Nat :=
  (chunks.map List.length).sum

/-! ## Bounded Body Stream

`ReadNBytesSource` from the source keeps a remaining byte budget (a JS
number, modelled as `Int` because a negative budget is representable), the
not-yet-read chunks of the underlying source stream, and whether the
underlying reader handle is currently held (`#reader !== undefined`). -/

/-- State of a `ReadNBytesSource`: remaining budget, chunks the underlying
source has not yet produced, and whether the source reader lock is held. -/
structure BState where
  remaining : Int
  source : List (List Nat)
  reader : Bool
deriving Repr, DecidableEq

/-- Result of one `pull` call: the derived stream either closed or had one
chunk enqueued on it. -/
inductive PullResult where
  | closed : PullResult
  | enqueued : List Nat → PullResult
deriving Repr, DecidableEq

/-- One call of `ReadNBytesSource.pull` (source lines 180-211): if the
budget is exhausted, close without touching the source (and without
releasing the reader); otherwise acquire the reader if needed and read one
chunk.  If the source is done, close and release the reader.  If the chunk
fits the budget, enqueue it whole and decrement; otherwise enqueue the
prefix that fits, zero the budget, and release the reader. -/
def pullStep (s : BState) : BState × PullResult :=
  if s.remaining ≤ 0 then (s, PullResult.closed)
  else
    match s.source with
    | [] => ({ s with reader := false }, PullResult.closed)
    | c :: rest =>
      if (c.length : Int) ≤ s.remaining then
        ({ remaining := s.remaining - c.length, source := rest, reader := true },
          PullResult.enqueued c)
      else
        ({ remaining := 0, source := rest, reader := false },
          PullResult.enqueued (c.take s.remaining.toNat))

theorem pullStep_enqueued_length (s s' : BState) (c : List Nat)
    (h : pullStep s = (s', PullResult.enqueued c)) :
    s'.source.length < s.source.length := by
  unfold pullStep at h
  split at h
  · simp at h
  · split at h
    · simp at h
    · rename_i heq
      split at h
      · injection h with h1 h2
        subst h1; simp [heq]
      · injection h with h1 h2
        subst h1; simp [heq]

/-- Driving the derived stream to completion: the chunks it yields, in
order, and the final source state when it closes.  (The streams runtime
calls `pull` repeatedly until the controller is closed.) -/
def runPull (s : BState) : List (List Nat) × BState :=
  match h : pullStep s with
  | (s', PullResult.closed) => ([], s')
  | (s', PullResult.enqueued c) =>
    let r := runPull s'
    (c :: r.1, r.2)
termination_by s.source.length
decreasing_by exact pullStep_enqueued_length s s' c h

theorem runPull_closed (s s' : BState) (h : pullStep s = (s', PullResult.closed)) :
    runPull s = ([], s') := by
  rw [runPull]
  split
  · rename_i s'' heq
    rw [h] at heq
    injection heq with h1 h2
    rw [h1]
  · rename_i s'' c heq
    rw [h] at heq
    injection heq with h1 h2
    exact absurd h2 (by simp)

theorem runPull_enqueued (s s' : BState) (c : List Nat)
    (h : pullStep s = (s', PullResult.enqueued c)) :
    runPull s = (c :: (runPull s').1, (runPull s').2) := by
  rw [runPull]
  split
  · rename_i s'' heq
    rw [h] at heq
    injection heq with h1 h2
    exact absurd h2 (by simp)
  · rename_i s'' c' heq
    rw [h] at heq
    injection heq with h1 h2
    injection h2 with h3
    rw [h1, h3]

/-- Model of `readAtMostNBytes(stream, n)` (source lines 213-218): the chunk list
yielded by the derived stream built from a fresh `ReadNBytesSource` with
budget `n` over `chunks`. -/
def readAtMostNBytes (chunks : List (List Nat)) (n : Int) : List (List Nat) :=
  (runPull ⟨n, chunks, false⟩).1

/-- Final `ReadNBytesSource` state after the derived stream has closed. -/
def readAtMostNBytesFinal (chunks : List (List Nat)) (n : Int) : BState :=
  (runPull ⟨n, chunks, false⟩).2

theorem totalLen_cons (c : List Nat) (rest : List (List Nat)) :
    totalLen (c :: rest) = c.length + totalLen rest := by
  simp [totalLen]

theorem runPull_output (chunks : List (List Nat)) : ∀ (n : Int) (b : Bool), 0 ≤ n →
    (((totalLen chunks : Int) < n → (runPull ⟨n, chunks, b⟩).1 = chunks) ∧
     (n ≤ (totalLen chunks : Int) → ((totalLen (runPull ⟨n, chunks, b⟩).1 : Int) = n))) := by
  induction chunks with
  | nil =>
    intro n b hn
    by_cases h0 : n ≤ 0
    · rw [runPull_closed ⟨n, [], b⟩ ⟨n, [], b⟩ (by simp [pullStep, h0])]
      refine ⟨fun _ => rfl, fun _ => ?_⟩
      simp [totalLen]; omega
    · rw [runPull_closed ⟨n, [], b⟩ ⟨n, [], false⟩ (by simp [pullStep, h0])]
      refine ⟨fun _ => rfl, fun hle => ?_⟩
      simp [totalLen] at hle ⊢
      omega
  | cons c rest ih =>
    intro n b hn
    have htc : totalLen (c :: rest) = c.length + totalLen rest := totalLen_cons c rest
    by_cases h0 : n ≤ 0
    · rw [runPull_closed ⟨n, c :: rest, b⟩ ⟨n, c :: rest, b⟩ (by simp [pullStep, h0])]
      constructor
      · intro hlt
        exfalso
        have : (0 : Int) ≤ (totalLen (c :: rest) : Int) := Int.natCast_nonneg _
        omega
      · intro _
        simp [totalLen]; omega
    · by_cases hc : (c.length : Int) ≤ n
      · rw [runPull_enqueued ⟨n, c :: rest, b⟩ ⟨n - c.length, rest, true⟩ c
          (by simp [pullStep, h0, hc])]
        have hn' : (0 : Int) ≤ n - c.length := by omega
        obtain ⟨ih1, ih2⟩ := ih (n - c.length) true hn'
        constructor
        · intro hlt
          rw [htc] at hlt
          push_cast at hlt
          have : (totalLen rest : Int) < n - c.length := by omega
          simp [ih1 this]
        · intro hle
          rw [htc] at hle
          push_cast at hle
          have : (n - c.length : Int) ≤ (totalLen rest : Int) := by omega
          have h2 := ih2 this
          rw [totalLen_cons]
          push_cast
          omega
      · rw [runPull_enqueued ⟨n, c :: rest, b⟩ ⟨0, rest, false⟩ (c.take n.toNat)
          (by simp [pullStep, h0, hc])]
        rw [runPull_closed ⟨0, rest, false⟩ ⟨0, rest, false⟩ (by simp [pullStep])]
        constructor
        · intro hlt
          exfalso
          rw [htc] at hlt
          push_cast at hlt
          omega
        · intro _
          simp [totalLen]
          omega

/-- Claim C1.  For every budget `N ≥ 0` and source chunk list: if the
chunks sum to more than `N` bytes, the derived stream yields exactly `N`
bytes in total (and, the model being a terminating run, then ends); if the
source produces fewer than `N` bytes, the derived stream yields exactly the
source chunks and ends when the source ends. -/
theorem readAtMostNBytes_budget (n : Nat) (chunks : List (List Nat)) :
    (n < totalLen chunks → totalLen (readAtMostNBytes chunks n) = n) ∧
    (totalLen chunks < n → readAtMostNBytes chunks n = chunks) := by
  obtain ⟨h1, h2⟩ := runPull_output chunks n false (Int.natCast_nonneg n)
  constructor
  · intro hlt
    have := h2 (by exact_mod_cast Nat.le_of_lt hlt)
    exact_mod_cast this
  · intro hlt
    exact h1 (by exact_mod_cast hlt)

/-- Witness for C1 at concrete inputs: budget 3 against 5 source bytes
yields 3 bytes; budget 9 against 5 source bytes yields the source chunks
unchanged. -/
theorem readAtMostNBytes_budget_witness :
    (3 < totalLen [[1, 2], [3, 4, 5]] ∧
      totalLen (readAtMostNBytes [[1, 2], [3, 4, 5]] 3) = 3) ∧
    (totalLen [[1, 2], [3, 4, 5]] < 9 ∧
      readAtMostNBytes [[1, 2], [3, 4, 5]] 9 = [[1, 2], [3, 4, 5]]) :=
  ⟨⟨by decide, (readAtMostNBytes_budget 3 [[1, 2], [3, 4, 5]]).1 (by decide)⟩,
   ⟨by decide, (readAtMostNBytes_budget 9 [[1, 2], [3, 4, 5]]).2 (by decide)⟩⟩

/-- Claim C5 (code bug).  When a source chunk exactly exhausts the byte
budget, the `value.length <= remaining` branch of `pull` keeps the reader
and sets the budget to zero; the next pull then closes the stream through
the exhausted-budget branch, which does not release the reader.  At budget
4 and a single 4-byte source chunk, the derived stream has closed (its run
is complete) yet the reader handle is still held. -/
theorem boundedStream_reader_leak :
    readAtMostNBytes [[1, 2, 3, 4]] 4 = [[1, 2, 3, 4]] ∧
    (readAtMostNBytesFinal [[1, 2, 3, 4]] 4).reader = true := by
  have h1 : pullStep ⟨4, [[1, 2, 3, 4]], false⟩ =
      (⟨0, [], true⟩, PullResult.enqueued [1, 2, 3, 4]) := by decide
  have h2 : pullStep ⟨0, [], true⟩ = (⟨0, [], true⟩, PullResult.closed) := by decide
  have hrun : runPull ⟨4, [[1, 2, 3, 4]], false⟩ = ([[1, 2, 3, 4]], ⟨0, [], true⟩) := by
    rw [runPull_enqueued _ _ _ h1, runPull_closed _ _ h2]
  exact ⟨by rw [readAtMostNBytes, hrun], by rw [readAtMostNBytesFinal, hrun]⟩

/-! ## Responses, handlers and routes -/

/-- Body of a model response: `null` (as produced by `none()`) or the
serialized text produced by `Response.json` or an encoder. -/
inductive RBody where
  | empty : RBody
  | text : String → RBody
deriving Repr, DecidableEq

/-- Model of a `Response`: status, optional status text, headers (stored
with lowercased names, as the platform `Headers` class does) and a body. -/
structure ResponseM where
  status : Nat
  statusText : Option String
  headers : List (String × String)
  body : RBody
deriving Repr, DecidableEq

/-- The serialized body `Response.json({ error: msg })` produces. -/
def jsonErrorBody (msg : String) : String :=
  "\x7b\"error\":\"" ++ msg ++ "\"\x7d"

/-- Model of `Response.json({ error: msg }, { status })`: a JSON error response. -/
def jsonResp (status : Nat) (msg : String) : ResponseM :=
  { status := status, statusText := none,
    headers := [("content-type", "application/json")],
    body := RBody.text (jsonErrorBody msg) }

/-- Model of `none()` (source lines 533-539) with no `ResponseInit`: an empty-body
204 response. -/
def noneResp : ResponseM :=
  { status := 204, statusText := none, headers := [], body := RBody.empty }

/-- Model of a `Request` as the definitions here observe it: method, url,
the headers the core reads, the body chunk list (`none` for a body-less
request), and the hidden `acceptsSymbol` property used to cache the
negotiated response content type. -/
structure ReqModel where
  method : String
  url : String
  acceptHeader : Option String
  contentTypeHeader : Option String
  contentLengthHeader : Option String
  bodyChunks : Option (List (List Nat))
  acceptsCache : Option String
deriving Repr, DecidableEq

/-- Path parameters: `result.pathname.groups` of a `URLPattern` match
(named groups, possibly undefined for unmatched optional segments). -/
abbrev ParamsM := List (String × Option String)

/-- Outcome of invoking a handler: a normal return (`Response` or `void`),
a thrown `Response`, a thrown `ResponseError` carrying its response and
optional message, or any other thrown error. -/
inductive HOutcome where
  | ok : Option ResponseM → HOutcome
  | thrownResponse : ResponseM → HOutcome
  | thrownResponseError : ResponseM → Option String → HOutcome
  | thrownOther : String → HOutcome
deriving Repr, DecidableEq

/-- A handler, applied to the request and extracted path parameters.  (The
application context and connection info arguments are threaded through the
router unchanged and never inspected by any claim, so they are elided here.) -/
abbrev HandlerFn := ReqModel → ParamsM → HOutcome

/-- The per-method mapping form of a `Route`: optional handlers under the
uppercase and lowercase method keys. -/
structure MethodsMap where
  GET : Option HandlerFn
  POST : Option HandlerFn
  PUT : Option HandlerFn
  DELETE : Option HandlerFn
  PATCH : Option HandlerFn
  get : Option HandlerFn
  post : Option HandlerFn
  put : Option HandlerFn
  delete : Option HandlerFn
  patch : Option HandlerFn

/-- Model of `Route = Handler | MethodsHandler`. -/
inductive RouteV where
  | handler : HandlerFn → RouteV
  | methods : MethodsMap → RouteV

/-- JavaScript `a || b` on two optional handler values: a defined function
is truthy, so the left value wins whenever present. -/
def jsOr (a b : Option HandlerFn) : Option HandlerFn :=
  match a with
  | some f => some f
  | none => b

/-- The 405 outcome of `Response.json` with error `method not allowed` and status 405
returned by the built dispatch function. -/
def methodNotAllowed : HOutcome :=
  HOutcome.ok (some (jsonResp 405 "method not allowed"))

/-- Model of `buildMethodsHandler` (source lines 95-129): a bare handler is returned
unchanged; a per-method mapping becomes a dispatch function switching on
the request method over the five recognized methods, each resolved as
`handlers.METHOD || handlers.method`, falling through to 405. -/
def buildMethodsHandler (handlers : RouteV) : HandlerFn :=
  match handlers with
  | RouteV.handler f => f
  | RouteV.methods hs =>
    let GET := jsOr hs.GET hs.get
    let POST := jsOr hs.POST hs.post
    let PUT := jsOr hs.PUT hs.put
    let DELETE := jsOr hs.DELETE hs.delete
    let PATCH := jsOr hs.PATCH hs.patch
    fun req ps =>
      if req.method = "GET" then
        match GET with
        | some f => f req ps
        | none => methodNotAllowed
      else if req.method = "POST" then
        match POST with
        | some f => f req ps
        | none => methodNotAllowed
      else if req.method = "PUT" then
        match PUT with
        | some f => f req ps
        | none => methodNotAllowed
      else if req.method = "DELETE" then
        match DELETE with
        | some f => f req ps
        | none => methodNotAllowed
      else if req.method = "PATCH" then
        match PATCH with
        | some f => f req ps
        | none => methodNotAllowed
      else methodNotAllowed

/-- The handler a per-method mapping registers for a given request method:
the uppercase key takes precedence over the lowercase key, and only the
five recognized methods resolve at all. -/
def registeredFor (m : MethodsMap) (method : String) : Option HandlerFn :=
  if method = "GET" then jsOr m.GET m.get
  else if method = "POST" then jsOr m.POST m.post
  else if method = "PUT" then jsOr m.PUT m.put
  else if method = "DELETE" then jsOr m.DELETE m.delete
  else if method = "PATCH" then jsOr m.PATCH m.patch
  else none

/-- Claim C3.  A bare handler `Route` is returned unchanged (responding to
any method); for a per-method mapping the dispatch function returns the
result of the handler registered for the request method (uppercase key
over lowercase key, only GET/POST/PUT/DELETE/PATCH recognized) and a 405
`method not allowed` JSON outcome when none is registered. -/
theorem buildMethodsHandler_spec :
    (∀ f : HandlerFn, buildMethodsHandler (RouteV.handler f) = f) ∧
    (∀ (m : MethodsMap) (req : ReqModel) (ps : ParamsM),
      buildMethodsHandler (RouteV.methods m) req ps =
        match registeredFor m req.method with
        | some f => f req ps
        | none => methodNotAllowed) := by
  refine ⟨fun f => rfl, fun m req ps => ?_⟩
  simp only [buildMethodsHandler, registeredFor]
  split_ifs <;> rfl

/-! ## Route descriptions and the table compiler

JavaScript objects are modelled as association lists in insertion order
(the `Object.entries` iteration order for string keys).  `obj[k] = v`
updates the value in place when the key is present and appends otherwise. -/

/-- JavaScript property assignment `obj[k] = v` on an insertion-ordered
object: replace the value at an existing key (keeping its position), else
append the new entry at the end. -/
def objSet {α : Type} : List (String × α) → String → α → List (String × α)
  | [], k, v => [(k, v)]
  | e :: rest, k, v =>
    if e.1 == k then (k, v) :: rest else e :: objSet rest k v

/-- JavaScript property read `obj[k]`. -/
def objGet {α : Type} : List (String × α) → String → Option α
  | [], _ => none
  | e :: rest, k => if e.1 == k then some e.2 else objGet rest k

theorem objGet_objSet {α : Type} (obj : List (String × α)) (k k' : String) (v : α) :
    objGet (objSet obj k v) k' = if k' = k then some v else objGet obj k' := by
  induction obj with
  | nil =>
    simp only [objSet, objGet]
    by_cases h : k' = k
    · subst h; simp
    · have hb : (k == k') = false := beq_eq_false_iff_ne.mpr (Ne.symm h)
      simp [hb, h]
  | cons e rest ih =>
    simp only [objSet]
    cases hbe : e.1 == k with
    | true =>
      have he : e.1 = k := beq_iff_eq.mp hbe
      simp only [if_pos rfl, cond_eq_if, if_true]
      by_cases h : k' = k
      · subst h
        simp [objGet]
      · have hb : (k == k') = false := beq_eq_false_iff_ne.mpr (Ne.symm h)
        have hb' : (e.1 == k') = false := by rw [he]; exact hb
        simp [objGet, hb, hb', h]
    | false =>
      rw [if_neg (show ¬ (false = true) by simp)]
      simp only [objGet, ih]
      by_cases h : k' = e.1
      · have hb : (e.1 == k') = true := beq_iff_eq.mpr h.symm
        have hkk : ¬ (k' = k) := fun hh => by
          rw [hh] at h
          exact (beq_eq_false_iff_ne.mp hbe) h.symm
        simp [hb, hkk]
      · have hb : (e.1 == k') = false := beq_eq_false_iff_ne.mpr (fun hh => h hh.symm)
        simp [hb]

/-- Value of a key after a sequence of `obj[k] = v` assignments: the last
assignment to that key wins, else the accumulator value. -/
theorem objGet_foldl_objSet {α : Type} (seq : List (String × α))
    (acc : List (String × α)) (k : String) :
    objGet (seq.foldl (fun a e => objSet a e.1 e.2) acc) k =
      ((seq.reverse.find? (fun e => e.1 == k)).map (fun e => e.2)).or (objGet acc k) := by
  induction seq generalizing acc with
  | nil => simp
  | cons e rest ih =>
    simp only [List.foldl_cons, List.reverse_cons, List.find?_append]
    rw [ih (objSet acc e.1 e.2), objGet_objSet]
    cases hfind : rest.reverse.find? (fun e => e.1 == k) with
    | some x => simp [Option.or]
    | none =>
      cases hbe : e.1 == k with
      | true =>
        have he : k = e.1 := (beq_iff_eq.mp hbe).symm
        simp [List.find?, hbe, Option.or, he]
      | false =>
        have he : ¬ (k = e.1) := fun hh => (beq_eq_false_iff_ne.mp hbe) hh.symm
        simp [List.find?, hbe, Option.or, he]

/-- Values of a route description entry: either a `Route` (handler or
per-method mapping) or a nested array of route descriptions. -/
inductive RoutesVal where
  | route : RouteV → RoutesVal
  | nested : List (List (String × RoutesVal)) → RoutesVal

/-- A `Routes` object: path-pattern keys mapped to route values. -/
abbrev RoutesObj := List (String × RoutesVal)

/-- Model of `defineRoute(pathname, route)` (source lines 64-69). -/
def defineRoute (pathname : String) (route : RouteV) : RoutesObj :=
  [(pathname, RoutesVal.route route)]

/-- Model of `defineRoutes` (source lines 75-77): returns its argument. -/
def defineRoutes (routes : RoutesObj) : RoutesObj :=
  routes

/-- Model of `defineGroup(prefix, group)` (source lines 79-93): iterate the group
list (a single non-array group is first wrapped in a one-element list) and
assign every entry into one fresh object under the prefixed key. -/
def defineGroup (pre : String) (group : List RoutesObj) : RoutesObj :=
  group.foldl
    (fun acc routes =>
      routes.foldl (fun acc2 entry => objSet acc2 (pre ++ entry.1) entry.2) acc)
    []

/-- Claim C7 counterexample values: two structurally distinct route values
for the same key. -/
def cexRouteA : RoutesVal := RoutesVal.nested []

def cexRouteB : RoutesVal := RoutesVal.nested [[]]

/-- Claim C7 counterexample.  `defineGroup` merges two group elements that
share the key `"/a"`; the merged mapping holds the LATER entry
(`cexRouteB`), not the earlier one, refuting the claim that the earlier
entry is kept. -/
theorem defineGroup_earlier_kept_cex :
    defineGroup "/p" [[("/a", cexRouteA)], [("/a", cexRouteB)]] =
      [("/p/a", cexRouteB)] ∧ cexRouteB ≠ cexRouteA := by
  constructor
  · rfl
  · intro h
    simp [cexRouteA, cexRouteB] at h

/-- Claim C7 amended.  `defineGroup(prefix, list)` returns one merged
mapping whose keys are `prefix` concatenated onto the keys of the list
elements, and at any key the merged value is the LAST entry (in list
order, then entry order) whose prefixed key equals it: later entries DO
override earlier ones sharing a key (plain key overwrite,
last-write-wins). -/
theorem defineGroup_last_write_wins (pre : String) (group : List RoutesObj) (k : String) :
    objGet (defineGroup pre group) k =
      (group.flatten.reverse.find? (fun e => pre ++ e.1 == k)).map (fun e => e.2) := by
  unfold defineGroup
  rw [← List.foldl_flatten (fun acc2 (entry : String × RoutesVal) =>
    objSet acc2 (pre ++ entry.1) entry.2) [] group]
  have hmap : group.flatten.foldl
      (fun acc2 (entry : String × RoutesVal) => objSet acc2 (pre ++ entry.1) entry.2) [] =
      (group.flatten.map (fun e => (pre ++ e.1, e.2))).foldl
        (fun a e => objSet a e.1 e.2) [] := by
    rw [List.foldl_map]
  rw [hmap, objGet_foldl_objSet]
  simp only [objGet, Option.or_none]
  rw [← List.map_reverse, List.find?_map, Option.map_map]
  rfl

/-! ## `streamOfRequestBody`: Content-Length handling -/

/-- Numeric value of a list of decimal digit characters. -/
def digitsToNat (ds : List Char) : Nat :=
  ds.foldl (fun a c => a * 10 + (c.toNat - 48)) 0

/-- Modelled from the platform: JavaScript `parseInt(s, 10)` — skip
leading whitespace, read an optional sign, then the longest prefix of
decimal digits; the result is `none` (NaN) when that prefix is empty,
trailing garbage is ignored. -/
def jsParseInt10 (s : String) : Option Int :=
  let cs := s.data.dropWhile (fun c => c == ' ' || c == '\t' || c == '\n' || c == '\r')
  let digits : List Char → Option Nat := fun l =>
    let ds := l.takeWhile Char.isDigit
    if ds.isEmpty then none else some (digitsToNat ds)
  match cs with
  | '-' :: rest => (digits rest).map (fun n => -(n : Int))
  | '+' :: rest => (digits rest).map (fun n => (n : Int))
  | _ => (digits cs).map (fun n => (n : Int))

/-- Modelled from the platform: `Number.isSafeInteger` on an integral
value — magnitude at most `2^53 - 1`. -/
def isSafeInteger (v : Int) : Bool :=
  v.natAbs ≤ 9007199254740991

/-- The body stream `receive` hands to the decoder, as a pure description:
either the raw request body chunks passed through, or a bounded stream
over them with the given byte budget.  Constructing it reads nothing. -/
inductive BodyStream where
  | raw : List (List Nat) → BodyStream
  | bounded : Int → List (List Nat) → BodyStream
deriving Repr, DecidableEq

/-- Model of `streamOfRequestBody` (source lines 220-238): no body → `undefined`;
a present `content-length` header is parsed with `parseInt(v, 10)` and a
NaN or non-safe-integer result yields `undefined`, a safe integer wraps
the body in `readAtMostNBytes`; with no `content-length` header the raw
body is returned. -/
def streamOfRequestBody (req : ReqModel) : Option BodyStream :=
  match req.bodyChunks with
  | none => none
  | some chunks =>
    match req.contentLengthHeader with
    | some s =>
      match jsParseInt10 s with
      | none => none
      | some v =>
        if isSafeInteger v then some (BodyStream.bounded v chunks) else none
    | none => some (BodyStream.raw chunks)

/-- Claim C4 counterexample input: a request with a one-chunk body and the
unparseable Content-Length value `"abc"`. -/
def cexReqC4 : ReqModel :=
  { method := "POST", url := "/x", acceptHeader := none,
    contentTypeHeader := some "application/json",
    contentLengthHeader := some "abc",
    bodyChunks := some [[1]], acceptsCache := none }

/-- Claim C4 counterexample.  The request has a body and a Content-Length
that does not parse as a number, yet `streamOfRequestBody` does NOT pass
the raw source stream through: it returns `undefined` (so `receive` later
fails with 400 `missing body`). -/
theorem streamOfRequestBody_nan_cex :
    cexReqC4.bodyChunks = some [[1]] ∧
    cexReqC4.contentLengthHeader = some "abc" ∧
    streamOfRequestBody cexReqC4 = none ∧
    streamOfRequestBody cexReqC4 ≠ some (BodyStream.raw [[1]]) := by
  refine ⟨rfl, rfl, by decide, by decide⟩

/-- Claim C4 amended.  For a request with a body: an absent Content-Length
header passes the raw source stream through unchanged; a present header is
parsed with `parseInt` and (a) a NaN or non-safe-integer value makes
`streamOfRequestBody` return `undefined` — treated as a missing body —
rather than passing the stream through, while (b) any safe-integer value,
including a negative one, applies bounding with that value (a negative or
zero budget bounding to an empty stream). -/
theorem streamOfRequestBody_spec (req : ReqModel) (chunks : List (List Nat)) :
    req.bodyChunks = some chunks →
    (req.contentLengthHeader = none →
      streamOfRequestBody req = some (BodyStream.raw chunks)) ∧
    (∀ s, req.contentLengthHeader = some s →
      (jsParseInt10 s = none → streamOfRequestBody req = none) ∧
      (∀ v, jsParseInt10 s = some v →
        (isSafeInteger v = false → streamOfRequestBody req = none) ∧
        (isSafeInteger v = true →
          streamOfRequestBody req = some (BodyStream.bounded v chunks) ∧
          (v ≤ 0 → readAtMostNBytes chunks v = [])))) := by
  intro hb
  constructor
  · intro hcl
    simp [streamOfRequestBody, hb, hcl]
  · intro s hcl
    constructor
    · intro hparse
      simp [streamOfRequestBody, hb, hcl, hparse]
    · intro v hparse
      constructor
      · intro hsafe
        simp [streamOfRequestBody, hb, hcl, hparse, hsafe]
      · intro hsafe
        refine ⟨by simp [streamOfRequestBody, hb, hcl, hparse, hsafe], ?_⟩
        intro hv
        rw [readAtMostNBytes, runPull_closed ⟨v, chunks, false⟩ ⟨v, chunks, false⟩
          (by simp [pullStep, hv])]

/-- Witness for C4 amended at concrete inputs: no Content-Length passes the
body through; Content-Length `"99999999999999999999"` is not a safe
integer and yields `undefined`; Content-Length `"-5"` is a safe integer
and bounds to an empty stream. -/
theorem streamOfRequestBody_spec_witness :
    (streamOfRequestBody { cexReqC4 with contentLengthHeader := none } =
      some (BodyStream.raw [[1]])) ∧
    (streamOfRequestBody { cexReqC4 with contentLengthHeader := some "99999999999999999999" } =
      none) ∧
    (streamOfRequestBody { cexReqC4 with contentLengthHeader := some "-5" } =
      some (BodyStream.bounded (-5) [[1]]) ∧
      readAtMostNBytes [[1]] (-5) = []) := by
  refine ⟨((streamOfRequestBody_spec _ [[1]] rfl).1 rfl), ?_, ?_⟩
  · exact ((((streamOfRequestBody_spec _ [[1]] rfl).2 "99999999999999999999" rfl).2
      99999999999999999999 (by decide)).1 (by decide))
  · have h := (((streamOfRequestBody_spec
      { cexReqC4 with contentLengthHeader := some "-5" } [[1]] rfl).2 "-5" rfl).2
      (-5) (by decide)).2 (by decide)
    exact ⟨h.1, h.2 (by decide)⟩

/-! ## String helpers

Executable models of the string operations the source uses (`toLowerCase`,
`trim`, `split`, `startsWith`, `drop`), defined over the character list of
a `String` so that concrete witnesses evaluate inside the kernel. -/

/-- Lowercase one ASCII character. -/
def lowerChar (c : Char) : Char :=
  if c.toNat ≥ 65 ∧ c.toNat ≤ 90 then Char.ofNat (c.toNat + 32) else c

/-- Model of `s.toLowerCase()` (ASCII). -/
def lowerStr (s : String) : String := ⟨s.data.map lowerChar⟩

/-- ASCII whitespace. -/
def isWsp (c : Char) : Bool := c == ' ' || c == '\t' || c == '\n' || c == '\r'

/-- Trim leading and trailing whitespace. -/
def trimStr (s : String) : String :=
  ⟨((s.data.dropWhile isWsp).reverse.dropWhile isWsp).reverse⟩

/-- Split a character list at every occurrence of a separator. -/
def splitCharList (sep : Char) : List Char → List (List Char)
  | [] => [[]]
  | c :: rest =>
    let r := splitCharList sep rest
    if c == sep then [] :: r else (c :: r.headD []) :: r.tail

/-- Split a string at every occurrence of a separator character. -/
def splitStrOnChar (sep : Char) (s : String) : List String :=
  (splitCharList sep s.data).map (fun cs => ⟨cs⟩)

/-- Model of `s.startsWith(p)`. -/
def startsWithStr (s p : String) : Bool := p.data.isPrefixOf s.data

/-- Drop the first `n` characters of a string. -/
def dropStr (n : Nat) (s : String) : String := ⟨s.data.drop n⟩

/-! ## `receive`: the negotiation layer decode path -/

/-- The serialized body of
`Response.json({ error: msg, details: issues })` for validation failures. -/
def jsonErrorDetailsBody (msg details : String) : String :=
  "\x7b\"error\":\"" ++ msg ++ "\",\"details\":" ++ details ++ "\x7d"

/-- The 400 `invalid request payload` response carrying validation issues. -/
def invalidPayloadResp (issues : String) : ResponseM :=
  { status := 400, statusText := none,
    headers := [("content-type", "application/json")],
    body := RBody.text (jsonErrorDetailsBody "invalid request payload" issues) }

/-- Modelled from the spec: the external media-type parser applied to
`request.headers.get("content-type") || ""` — it yields the media type
(lowercased) and the value of a `charset` parameter when one is present;
a blank input yields no media type.  Full token validation and quoting of
the external library are not modelled. -/
def parseMediaType (s : String) : Option String × Option String :=
  let parts := splitStrOnChar ';' s
  let mt := lowerStr (trimStr (parts.headD ""))
  let cs := parts.tail.findSome? (fun p =>
    let q := trimStr p
    if startsWithStr (lowerStr q) "charset=" then some (dropStr 8 q) else none)
  if mt = "" then (none, none) else (some mt, cs)

/-- The charset guard of `receive` (source line 390):
`charset !== undefined && charset.toLowerCase() !== "utf-8"`. -/
def charsetBad : Option String → Bool
  | some cs => !(lowerStr cs == "utf-8")
  | none => false

/-- Every registered decoder fully buffers the stream (concatenating all
chunks) before parsing.  `drain` is that buffering: the bytes handed to
the parse function, and (as instrumentation) how many bytes were read off
the underlying source — for a bounded stream, the source chunks consumed
before it closed. -/
def drain (b : BodyStream) : List Nat × Nat :=
  match b with
  | BodyStream.raw chunks => (chunks.flatten, totalLen chunks)
  | BodyStream.bounded n chunks =>
    ((readAtMostNBytes chunks n).flatten,
      totalLen chunks - totalLen (readAtMostNBytesFinal chunks n).source)

/-- Outcome of `receive`: a returned value, a thrown `ResponseError`
(response plus message), or any other error thrown by a decoder and left
uncaught.  The trailing `Nat` instruments how many bytes had been read
from the request body source when the outcome was produced. -/
inductive RecvOutcome (α : Type) where
  | ok : α → Nat → RecvOutcome α
  | respErr : ResponseM → String → Nat → RecvOutcome α
  | rawErr : String → Nat → RecvOutcome α
deriving Repr, DecidableEq

/-- Whether a `receive` outcome is a thrown `ResponseError`. -/
def isRespErr {α : Type} : RecvOutcome α → Bool
  | RecvOutcome.respErr _ _ _ => true
  | _ => false

/-- Model of `receive` (source lines 364-436), parameterized by the decode registry
(a map from lowercased content type to a parse function on the buffered
bytes, `Except` modelling a thrown parse error) and an optional schema
(`safeParse`, `Except` carrying the serialized issue list on failure):
missing body → 400; missing content type → 400; non-UTF-8 charset → 415;
unregistered content type → 415; then the decoder runs on the drained
body — note the absence of any handler around a decoder error — and the
schema, when supplied, validates the decoded value. -/
def receive {α : Type} (decoders : String → Option (List Nat → Except String α))
    (schema : Option (α → Except String α)) (req : ReqModel) : RecvOutcome α :=
  match streamOfRequestBody req with
  | none => RecvOutcome.respErr (jsonResp 400 "missing body") "missing body" 0
  | some body =>
    let mt := parseMediaType (req.contentTypeHeader.getD "")
    match mt.1 with
    | none =>
      RecvOutcome.respErr (jsonResp 400 "missing content-type") "missing content-type" 0
    | some contentType =>
      if charsetBad mt.2 then
        RecvOutcome.respErr
          (jsonResp 415 ("unsupported charset: " ++ mt.2.getD ""))
          ("unsupported charset: " ++ mt.2.getD "") 0
      else
        match decoders (lowerStr contentType) with
        | none =>
          RecvOutcome.respErr
            (jsonResp 415 ("unsupported content-type: " ++ contentType))
            ("unsupported content-type: " ++ contentType) 0
        | some decoder =>
          let d := drain body
          match decoder d.1 with
          | Except.error e => RecvOutcome.rawErr e d.2
          | Except.ok parsedData =>
            match schema with
            | none => RecvOutcome.ok parsedData d.2
            | some sch =>
              match sch parsedData with
              | Except.error issues =>
                RecvOutcome.respErr (invalidPayloadResp issues) "invalid request payload" d.2
              | Except.ok v => RecvOutcome.ok v d.2

/-- Modelled from the spec: the registered JSON decoder applied to body
bytes that are malformed for JSON — `JSON.parse` throws a `SyntaxError`,
modelled as the error result of the parse function.  Registry restricted
to the one entry the counterexample exercises. -/
def cexDecoders : String → Option (List Nat → Except String Nat) :=
  fun ct =>
    if ct == "application/json" then
      some (fun _ => Except.error "SyntaxError: Unexpected end of JSON input")
    else none

/-- Claim C6 counterexample input: a JSON-typed request whose single body
byte `0x7b` is not a complete JSON document. -/
def cexReqC6 : ReqModel :=
  { method := "POST", url := "/x", acceptHeader := none,
    contentTypeHeader := some "application/json",
    contentLengthHeader := none,
    bodyChunks := some [[123]], acceptsCache := none }

/-- Claim C6 counterexample.  On malformed body bytes for the claimed
content type, `receive` does NOT fail with a typed error-as-response: the
decoder's raw error escapes unchanged (`rawErr`, not `respErr`). -/
theorem receive_decode_error_cex :
    receive cexDecoders none cexReqC6 =
      RecvOutcome.rawErr "SyntaxError: Unexpected end of JSON input" 1 ∧
    isRespErr (receive cexDecoders none cexReqC6) = false := by
  constructor <;> decide

/-- Claim C6 amended.  When the registered decoder for the request's
content type raises a parse error on the drained body bytes, `receive`
propagates that raw error unchanged — it is distinguishable from the
typed error-as-response but is NOT converted into an HTTP error response
by the negotiation layer (only pre-decode failures and schema-validation
failures are). -/
theorem receive_decode_error_escapes {α : Type}
    (decoders : String → Option (List Nat → Except String α))
    (schema : Option (α → Except String α)) (req : ReqModel)
    (body : BodyStream) (contentType : String)
    (decoder : List Nat → Except String α) (e : String)
    (hbody : streamOfRequestBody req = some body)
    (hct : (parseMediaType (req.contentTypeHeader.getD "")).1 = some contentType)
    (hcs : charsetBad (parseMediaType (req.contentTypeHeader.getD "")).2 = false)
    (hdec : decoders (lowerStr contentType) = some decoder)
    (herr : decoder (drain body).1 = Except.error e) :
    receive decoders schema req = RecvOutcome.rawErr e (drain body).2 := by
  unfold receive
  rw [hbody]
  simp only [hct, hcs, hdec, herr]
  simp [Bool.false_eq_true, if_false]

/-- Witness for C6 amended at a concrete input (a two-byte malformed JSON
body, so one full chunk is consumed by the buffering decoder). -/
theorem receive_decode_error_escapes_witness :
    receive cexDecoders none { cexReqC6 with bodyChunks := some [[123, 34]] } =
      RecvOutcome.rawErr "SyntaxError: Unexpected end of JSON input" 2 :=
  receive_decode_error_escapes cexDecoders none _
    (BodyStream.raw [[123, 34]]) "application/json"
    (fun _ => Except.error "SyntaxError: Unexpected end of JSON input")
    "SyntaxError: Unexpected end of JSON input"
    (by decide) (by decide) (by decide) rfl rfl

/-- The thrown messages of the four pre-decode failures of `receive`. -/
def isPreDecodeMsg (msg : String) : Bool :=
  msg == "missing body" || msg == "missing content-type" ||
  startsWithStr msg "unsupported charset: " ||
  startsWithStr msg "unsupported content-type: "

/-- Claim C10.  Whenever `receive` fails with one of the four pre-decode
errors — missing body, missing content-type, unsupported charset,
unsupported content-type — it has read zero bytes from the request body
source: wrapping the body (including constructing the bounded stream) is
pure and consumes nothing. -/
theorem receive_preDecode_reads_nothing {α : Type}
    (decoders : String → Option (List Nat → Except String α))
    (schema : Option (α → Except String α)) (req : ReqModel)
    (resp : ResponseM) (msg : String) (consumed : Nat)
    (h : receive decoders schema req = RecvOutcome.respErr resp msg consumed)
    (hmsg : isPreDecodeMsg msg = true) :
    consumed = 0 := by
  unfold receive at h
  cases hsb : streamOfRequestBody req with
  | none =>
    simp only [hsb] at h
    injection h with h1 h2 h3
    exact h3.symm
  | some body =>
    simp only [hsb] at h
    cases hmt : (parseMediaType (req.contentTypeHeader.getD "")).1 with
    | none =>
      simp only [hmt] at h
      injection h with h1 h2 h3
      exact h3.symm
    | some contentType =>
      simp only [hmt] at h
      cases hcb : charsetBad (parseMediaType (req.contentTypeHeader.getD "")).2 with
      | true =>
        simp only [hcb, if_true] at h
        injection h with h1 h2 h3
        exact h3.symm
      | false =>
        simp only [hcb, Bool.false_eq_true, if_false] at h
        cases hdec : decoders (lowerStr contentType) with
        | none =>
          simp only [hdec] at h
          injection h with h1 h2 h3
          exact h3.symm
        | some decoder =>
          simp only [hdec] at h
          cases hres : decoder (drain body).1 with
          | error e =>
            simp only [hres] at h
            exact absurd h (by simp)
          | ok parsedData =>
            simp only [hres] at h
            cases schema with
            | none => exact absurd h (by simp)
            | some sch =>
              cases hval : sch parsedData with
              | error issues =>
                simp only [hval] at h
                injection h with h1 h2 h3
                subst h2
                exact absurd hmsg (by decide)
              | ok v =>
                simp only [hval] at h
                exact absurd h (by simp)

/-- Witness for C10 at a concrete input: a request with a body but no
Content-Type header fails with 400 `missing content-type` having consumed
zero bytes. -/
theorem receive_preDecode_reads_nothing_witness :
    receive cexDecoders (none : Option (Nat → Except String Nat))
        { cexReqC6 with contentTypeHeader := none } =
      RecvOutcome.respErr (jsonResp 400 "missing content-type")
        "missing content-type" 0 ∧
    (0 : Nat) = 0 :=
  ⟨by decide,
    receive_preDecode_reads_nothing cexDecoders none
      { cexReqC6 with contentTypeHeader := none }
      (jsonResp 400 "missing content-type") "missing content-type" 0
      (by decide) (by decide)⟩

/-! ## Content negotiation: `assertAcceptsSupported` and `send` -/

/-- The encoder registry keys, in registration order
(source lines 470-480). -/
def encoderKeys : List String :=
  ["application/json", "application/msgpack", "application/x-msgpack",
   "application/toml", "application/x-toml", "application/yaml",
   "application/x-yaml", "application/cbor", "application/x-cbor",
   "application/json5", "application/x-json5"]

/-- The external `accepts(request, ...types)` helper: a deterministic
function of the request's Accept header and the candidate type list. -/
abbrev AcceptsFn := Option String → List String → Option String

/-- Modelled from the spec: the external Accept negotiation — with no
Accept header every candidate is acceptable and the first registered one
is returned; otherwise the first candidate (in registration order) that
the header lists literally, or covers with a `*/*` or `type/*` wildcard;
`none` when nothing is acceptable (spec scenario 5: `Accept:
application/xml` against this registry yields none).  Quality values are
not modelled. -/
def acceptsNegotiate : AcceptsFn := fun acceptHeader types =>
  match acceptHeader with
  | none => types.head?
  | some h =>
    let wanted := (splitStrOnChar ',' h).map (fun s =>
      lowerStr (trimStr ((splitStrOnChar ';' s).headD "")))
    types.find? (fun t =>
      wanted.contains (lowerStr t) || wanted.contains "*/*" ||
      wanted.contains (((splitStrOnChar '/' t).headD "") ++ "/*"))

/-- Model of `assertAcceptsSupported` (source lines 484-499): negotiate against the
encoder registry keys; failure throws a 406 `ResponseError`, success
caches the decision on the request under the hidden `acceptsSymbol` key
(modelled as the returned, updated request). -/
def assertAcceptsSupported (acceptsFn : AcceptsFn) (req : ReqModel) :
    Except ResponseM ReqModel :=
  match acceptsFn req.acceptHeader encoderKeys with
  | none => Except.error (jsonResp 406 "no acceptable content-type found")
  | some contentType => Except.ok { req with acceptsCache := some contentType }

/-- Caller-supplied `ResponseInit`. -/
structure RespInitM where
  status : Option Nat
  statusText : Option String
  headers : List (String × String)
deriving Repr, DecidableEq

/-- The content type `send` uses:
`(request as any)[acceptsSymbol] || accepts(request, ...keys)` — the
cached decision when present (it is always a non-empty registered key,
hence truthy), else a fresh negotiation. -/
def negotiatedCT (acceptsFn : AcceptsFn) (req : ReqModel) : Option String :=
  match req.acceptsCache with
  | some c => some c
  | none => acceptsFn req.acceptHeader encoderKeys

/-- Model of `new Headers(...).set(n, v)`: header names are case-insensitive
(stored lowercased); `set` replaces an existing value. -/
def headerSet (hs : List (String × String)) (n v : String) : List (String × String) :=
  objSet hs (lowerStr n) v

/-- Model of `headers.get(n)`. -/
def headerGet (hs : List (String × String)) (n : String) : Option String :=
  objGet hs (lowerStr n)

/-- Model of `new Headers(init)`: appends entries in order, combining values of a
repeated name with a comma. -/
def headerAppend (hs : List (String × String)) (n v : String) : List (String × String) :=
  match objGet hs (lowerStr n) with
  | some old => objSet hs (lowerStr n) (old ++ ", " ++ v)
  | none => hs ++ [(lowerStr n, v)]

/-- Model of `new Headers(entries)`. -/
def mkHeaders (l : List (String × String)) : List (String × String) :=
  l.foldl (fun a e => headerAppend a e.1 e.2) []

/-- Model of `send` (source lines 501-531), parameterized by the negotiation helper
and the encoder registry (`encoders.get(ct.toLowerCase())!` applied to the
data, modelled as a total function to the serialized body): negotiate
(cached decision first), 406 `ResponseError` on failure; otherwise build
the response from the caller-supplied init — headers copied, then
`Content-Type` set to the negotiated type, status defaulting to 200. -/
def send {α : Type} (acceptsFn : AcceptsFn) (encodersFn : String → α → String)
    (req : ReqModel) (data : α) (init : Option RespInitM) :
    Except ResponseM ResponseM :=
  match negotiatedCT acceptsFn req with
  | none => Except.error (jsonResp 406 "no acceptable content-type found")
  | some contentType =>
    Except.ok
      { status := (init.bind (fun i => i.status)).getD 200,
        statusText := init.bind (fun i => i.statusText),
        headers := headerSet (mkHeaders ((init.map (fun i => i.headers)).getD []))
          "Content-Type" contentType,
        body := RBody.text (encodersFn (lowerStr contentType) data) }

/-- Claim C8.  Content negotiation is idempotent within one request: on a
fresh request (no cached decision yet), a successful
`assertAcceptsSupported` followed by `send` selects the same MIME type —
indeed produces the identical response — as `send` alone would on that
request, for every deterministic negotiation function. -/
theorem negotiation_idempotent {α : Type} (acceptsFn : AcceptsFn)
    (encodersFn : String → α → String) (req req' : ReqModel) (data : α)
    (init : Option RespInitM)
    (hfresh : req.acceptsCache = none)
    (hassert : assertAcceptsSupported acceptsFn req = Except.ok req') :
    negotiatedCT acceptsFn req' = negotiatedCT acceptsFn req ∧
    send acceptsFn encodersFn req' data init = send acceptsFn encodersFn req data init := by
  unfold assertAcceptsSupported at hassert
  cases hacc : acceptsFn req.acceptHeader encoderKeys with
  | none => rw [hacc] at hassert; exact absurd hassert (by simp)
  | some ct =>
    rw [hacc] at hassert
    injection hassert with hreq'
    subst hreq'
    have h1 : negotiatedCT acceptsFn { req with acceptsCache := some ct } = some ct := rfl
    have h2 : negotiatedCT acceptsFn req = some ct := by
      unfold negotiatedCT
      rw [hfresh, hacc]
    refine ⟨h1.trans h2.symm, ?_⟩
    unfold send
    rw [h1, h2]

/-- Witness for C8 at a concrete input: a fresh request with
`Accept: application/json`, negotiated by the modelled accepts helper. -/
theorem negotiation_idempotent_witness :
    negotiatedCT acceptsNegotiate
        { method := "GET", url := "/x", acceptHeader := some "application/json",
          contentTypeHeader := none, contentLengthHeader := none,
          bodyChunks := none, acceptsCache := some "application/json" } =
      negotiatedCT acceptsNegotiate
        { method := "GET", url := "/x", acceptHeader := some "application/json",
          contentTypeHeader := none, contentLengthHeader := none,
          bodyChunks := none, acceptsCache := none } ∧
    send acceptsNegotiate (fun _ _ => "0")
        { method := "GET", url := "/x", acceptHeader := some "application/json",
          contentTypeHeader := none, contentLengthHeader := none,
          bodyChunks := none, acceptsCache := some "application/json" } (0 : Nat) none =
      send acceptsNegotiate (fun _ _ => "0")
        { method := "GET", url := "/x", acceptHeader := some "application/json",
          contentTypeHeader := none, contentLengthHeader := none,
          bodyChunks := none, acceptsCache := none } (0 : Nat) none :=
  negotiation_idempotent acceptsNegotiate (fun _ _ => "0")
    { method := "GET", url := "/x", acceptHeader := some "application/json",
      contentTypeHeader := none, contentLengthHeader := none,
      bodyChunks := none, acceptsCache := none }
    { method := "GET", url := "/x", acceptHeader := some "application/json",
      contentTypeHeader := none, contentLengthHeader := none,
      bodyChunks := none, acceptsCache := some "application/json" }
    0 none rfl rfl

/-- Claim C9.  Whenever negotiation succeeds with MIME type `ct`, `send`
returns a response whose `Content-Type` header equals `ct` — the
negotiated type wins even over a caller-supplied Content-Type — whose
status is the caller-supplied one (200 when none is given), whose status
text is the caller-supplied one, and in which every caller-supplied
header other than Content-Type is present unchanged. -/
theorem send_response_shape {α : Type} (acceptsFn : AcceptsFn)
    (encodersFn : String → α → String) (req : ReqModel) (data : α)
    (init : Option RespInitM) (ct : String)
    (hct : negotiatedCT acceptsFn req = some ct) :
    ∃ resp, send acceptsFn encodersFn req data init = Except.ok resp ∧
      headerGet resp.headers "Content-Type" = some ct ∧
      resp.status = (init.bind (fun i => i.status)).getD 200 ∧
      resp.statusText = init.bind (fun i => i.statusText) ∧
      ∀ nm, lowerStr nm ≠ "content-type" →
        headerGet resp.headers nm =
          headerGet (mkHeaders ((init.map (fun i => i.headers)).getD [])) nm := by
  unfold send
  rw [hct]
  refine ⟨_, rfl, ?_, rfl, rfl, ?_⟩
  · unfold headerGet headerSet
    rw [objGet_objSet]
    have hl : lowerStr "Content-Type" = "content-type" := by decide
    simp [hl]
  · intro nm hnm
    unfold headerGet headerSet
    rw [objGet_objSet]
    have hl : lowerStr "Content-Type" = "content-type" := by decide
    rw [hl, if_neg hnm]

/-- The concrete request and `ResponseInit` of the C9 witness. -/
def reqC9 : ReqModel :=
  { method := "GET", url := "/x", acceptHeader := none,
    contentTypeHeader := none, contentLengthHeader := none,
    bodyChunks := none, acceptsCache := some "application/json" }

def initC9 : RespInitM :=
  { status := some 201, statusText := some "Created",
    headers := [("Content-Type", "text/plain"), ("X-Extra", "1")] }

/-- Witness for C9 at a concrete input: cached negotiation decision
`application/json`, caller init with status 201, a Content-Type header
(overridden) and an extra header (preserved). -/
theorem send_response_shape_witness :
    ∃ resp, send (fun _ _ => none) (fun _ _ => "x") reqC9 (0 : Nat) (some initC9) =
      Except.ok resp ∧
      headerGet resp.headers "Content-Type" = some "application/json" ∧
      resp.status = ((some initC9).bind (fun i => i.status)).getD 200 ∧
      resp.statusText = (some initC9).bind (fun i => i.statusText) ∧
      ∀ nm, lowerStr nm ≠ "content-type" →
        headerGet resp.headers nm =
          headerGet (mkHeaders (((some initC9).map (fun i => i.headers)).getD [])) nm :=
  send_response_shape (fun _ _ => none) (fun _ _ => "x") reqC9 0 (some initC9)
    "application/json" rfl

/-! ## Route table compiler and router -/

/-- A compiled `URLPattern`: `exec` returns the named path-parameter
groups on a match and `null` otherwise; the platform guarantees `test`
succeeds exactly when `exec` does. -/
structure PatternM where
  exec : String → Option ParamsM

/-- Model of `pattern.test(url)`. -/
def patternTest (p : PatternM) (url : String) : Bool :=
  (p.exec url).isSome

mutual

/-- Model of `flattenRoutes` (source lines 131-148), with the assignments of each
recursive call merged directly into the shared accumulator (equivalent to
building a fresh object and `Object.assign`-ing it, since assignment
updates in place).  `flattenInto` walks the entries of one routes object
under an accumulated prefix; array values recurse into each element. -/
def flattenInto (acc : List (String × RouteV)) (parentPath : String) :
    RoutesObj → List (String × RouteV)
  | [] => acc
  | e :: rest => flattenInto (flattenVal acc (parentPath ++ e.1) e.2) parentPath rest

def flattenVal (acc : List (String × RouteV)) (fullPath : String) :
    RoutesVal → List (String × RouteV)
  | RoutesVal.route r => objSet acc fullPath r
  | RoutesVal.nested l => flattenList acc fullPath l

def flattenList (acc : List (String × RouteV)) (fullPath : String) :
    List RoutesObj → List (String × RouteV)
  | [] => acc
  | sub :: more => flattenList (flattenInto acc fullPath sub) fullPath more

end

/-- Top-level `flattenRoutes(routes)` at the default empty parent path. -/
def flattenRoutes (routes : RoutesObj) : List (String × RouteV) :=
  flattenInto [] "" routes

/-- Model of `compileRoutes` (source lines 150-168): flatten, then compile each
entry — pattern construction (`new URLPattern({ pathname })`) is the
platform's and is a parameter here — preserving the flattening/insertion
order of the flat mapping. -/
def compileRoutes (patternOf : String → PatternM) (routes : RoutesObj) :
    List (PatternM × HandlerFn) :=
  (flattenRoutes routes).map (fun e => (patternOf e.1, buildMethodsHandler e.2))

/-- Model of `return await handler(...) || none()` plus the surrounding catch
(source lines 578-588): a returned response is passed through, a void
return becomes the 204 default, a thrown `Response` or `ResponseError`
becomes a response, anything else is rethrown out of the router. -/
def handlerToResponse (o : HOutcome) : Except String ResponseM :=
  match o with
  | HOutcome.ok (some r) => Except.ok r
  | HOutcome.ok none => Except.ok noneResp
  | HOutcome.thrownResponse r => Except.ok r
  | HOutcome.thrownResponseError r _ => Except.ok r
  | HOutcome.thrownOther e => Except.error e

/-- The pattern loop of `router` (source lines 570-591): test each
pattern in table order, re-exec the first that matches to extract the
parameters, dispatch; 404 when no pattern matches. -/
def routerLoop : List (PatternM × HandlerFn) → ReqModel → Except String ResponseM
  | [], _ => Except.ok (jsonResp 404 "not found")
  | (p, hd) :: rest, req =>
    if patternTest p req.url then
      match p.exec req.url with
      | some params => handlerToResponse (hd req params)
      | none => routerLoop rest req
    else routerLoop rest req

/-- The Accept pre-check of `router` (source lines 558-564): when the
request carries an Accept header, run `assertAcceptsSupported` (caching
the decision on the request) and short-circuit with its carried response
on failure. -/
def routerGate (acceptsFn : AcceptsFn) (req : ReqModel) : Except ResponseM ReqModel :=
  if req.acceptHeader.isSome then assertAcceptsSupported acceptsFn req
  else Except.ok req

/-- Model of `router` (source lines 552-592). -/
def router (acceptsFn : AcceptsFn) (table : List (PatternM × HandlerFn))
    (req : ReqModel) : Except String ResponseM :=
  match routerGate acceptsFn req with
  | Except.error resp => Except.ok resp
  | Except.ok req' => routerLoop table req'

theorem routerLoop_skip (req : ReqModel) (pre rest : List (PatternM × HandlerFn))
    (hpre : ∀ q ∈ pre, q.1.exec req.url = none) :
    routerLoop (pre ++ rest) req = routerLoop rest req := by
  induction pre with
  | nil => rfl
  | cons q pre' ih =>
    have hq : q.1.exec req.url = none := hpre q (List.mem_cons_self q pre')
    have ht : patternTest q.1 req.url = false := by
      unfold patternTest
      rw [hq]
      rfl
    cases q with
    | mk p hd =>
      simp only [List.cons_append, routerLoop, ht, Bool.false_eq_true, if_false]
      exact ih (fun r hr => hpre r (List.mem_cons_of_mem _ hr))

/-- The C2 counterexample pattern: matches every url with no parameters. -/
def patAll : PatternM := ⟨fun _ => some []⟩

/-- The C2 counterexample response and handler. -/
def cexRespOk : ResponseM :=
  { status := 200, statusText := none, headers := [], body := RBody.text "ok" }

def hdlOk : HandlerFn := fun _ _ => HOutcome.ok (some cexRespOk)

/-- The C2 counterexample request: url matched by `patAll`, but carrying
`Accept: application/xml`, which the registry cannot satisfy. -/
def cexReqC2 : ReqModel :=
  { method := "GET", url := "/x", acceptHeader := some "application/xml",
    contentTypeHeader := none, contentLengthHeader := none,
    bodyChunks := none, acceptsCache := none }

/-- Claim C2 counterexample.  A pattern in the table matches the request
url, yet the router invokes no dispatch function and returns neither that
handler's response nor a 404: the Accept pre-check fails first and the
router returns its 406 response. -/
theorem router_accept_gate_cex :
    patternTest patAll cexReqC2.url = true ∧
    router acceptsNegotiate [(patAll, hdlOk)] cexReqC2 =
      Except.ok (jsonResp 406 "no acceptable content-type found") ∧
    handlerToResponse (hdlOk cexReqC2 []) = Except.ok cexRespOk ∧
    (jsonResp 406 "no acceptable content-type found") ≠ cexRespOk ∧
    (jsonResp 406 "no acceptable content-type found").status ≠ 404 := by
  refine ⟨rfl, rfl, rfl, by decide, by decide⟩

/-- Claim C2 amended.  Provided the Accept pre-check passes — the request
has no Accept header, or negotiation succeeds and yields the updated
request `req'` — the router invokes the dispatch function of the earliest
pattern (in table order) whose `exec` matches the request url, passing the
parameters that pattern extracts, and the result is determined by that
handler alone (the model is a function, so the choice is deterministic);
when no pattern matches, the router returns the 404 response with body
`error: not found`. -/
theorem router_first_match_spec (acceptsFn : AcceptsFn) (req req' : ReqModel)
    (hgate : routerGate acceptsFn req = Except.ok req') :
    (∀ (pre post : List (PatternM × HandlerFn)) (p : PatternM) (hd : HandlerFn)
      (ps : ParamsM),
      (∀ q ∈ pre, q.1.exec req'.url = none) → p.exec req'.url = some ps →
      router acceptsFn (pre ++ (p, hd) :: post) req = handlerToResponse (hd req' ps)) ∧
    (∀ table : List (PatternM × HandlerFn),
      (∀ q ∈ table, q.1.exec req'.url = none) →
      router acceptsFn table req = Except.ok (jsonResp 404 "not found")) := by
  have hrw : ∀ table, router acceptsFn table req = routerLoop table req' := by
    intro table
    unfold router
    rw [hgate]
  constructor
  · intro pre post p hd ps hpre hp
    rw [hrw, routerLoop_skip req' pre _ hpre]
    have ht : patternTest p req'.url = true := by
      unfold patternTest
      rw [hp]
      rfl
    simp only [routerLoop, ht, if_true, hp]
  · intro table hall
    rw [hrw]
    have := routerLoop_skip req' table [] hall
    rw [List.append_nil] at this
    rw [this]
    rfl

/-- The C2 witness table entries: a non-matching pattern first, then a
pattern matching `/x` with one extracted parameter. -/
def patMiss : PatternM := ⟨fun _ => none⟩

def patHit : PatternM := ⟨fun u => if u == "/x" then some [("id", some "1")] else none⟩

def hdlHit : HandlerFn := fun _ _ => HOutcome.ok none

def reqC2w : ReqModel :=
  { method := "GET", url := "/x", acceptHeader := none,
    contentTypeHeader := none, contentLengthHeader := none,
    bodyChunks := none, acceptsCache := none }

/-- Witness for C2 amended at concrete inputs: with no Accept header the
gate passes; the second table entry is the earliest match and its handler
(void return, hence the 204 default) is invoked with the extracted
parameter; an all-miss table falls through to the 404 response. -/
theorem router_first_match_spec_witness :
    router acceptsNegotiate [(patMiss, hdlOk), (patHit, hdlHit)] reqC2w =
      Except.ok noneResp ∧
    router acceptsNegotiate [(patMiss, hdlOk)] reqC2w =
      Except.ok (jsonResp 404 "not found") := by
  have h := router_first_match_spec acceptsNegotiate reqC2w reqC2w rfl
  constructor
  · exact h.1 [(patMiss, hdlOk)] [] patHit hdlHit [("id", some "1")]
      (by intro q hq; simp at hq; rw [hq]; rfl) (by decide)
  · exact h.2 [(patMiss, hdlOk)]
      (by intro q hq; simp at hq; rw [hq]; rfl)

end Foolert
